import Mathlib

/-!
Verification of the data-parsing notebook: the CSV aggregation pipeline
(the `fatalities_per_year` tally, the `aircraft_types` and
`fatal_aircraft_types` counters) and the paginated JSON collection loop
(the `data_sets` loop and the `scores` extraction loop).

Python semantics are shallowly embedded:

* CSV rows are lists of strings; `int(...)` is modeled by `pyInt`
  (strip ASCII whitespace, optional sign, a nonempty run of decimal
  digits; underscore separators and non-ASCII digits are not modeled,
  no claim involves them);
* `dict` / `defaultdict(int)` / `Counter` values are association lists
  in insertion order, which is how Python dicts iterate;
* a raised exception is modeled by `Except.error` whose payload records
  the loop position and the in-scope accumulator at the raise point;
* one `requests.get` plus `r.json()` step is a `ReqResult`: `fail` when
  the request or the body parse raises (nothing is appended), `body j`
  when a parsed JSON body comes back, where `j` either has the
  `data.children` / `data.after` shape (`Fetched.page`) or does not
  (`Fetched.malformed`, for example the JSON body of a non-success
  HTTP status, which `requests` does not raise on).
-/

/-- One post inside a page; only the `data.score` field is ever read. -/
structure Item where
  score : Int
deriving DecidableEq

/-- A JSON body with the shape the notebook expects: `data.children`
(a list of items) and `data.after` (a cursor, possibly `null`). -/
structure Page where
  children : List Item
  after : Option String
deriving DecidableEq

/-- A parsed JSON body: either shaped like a page, or anything else
(for example the body of a non-success HTTP status). -/
inductive Fetched where
  | page : Page → Fetched
  | malformed : Fetched
deriving DecidableEq

/-- Result of one `requests.get` + `r.json()` step: `fail` when the
request or the body parse raises, `body` when a parsed JSON value is
returned. -/
inductive ReqResult where
  | fail : ReqResult
  | body : Fetched → ReqResult
deriving DecidableEq

/-- Reading `j['data']['after']`: raises (a `KeyError`) unless the body
has the page shape. -/
def cursorOf : Fetched → Except Unit (Option String)
  | .page p => .ok p.after
  | .malformed => .error ()

/-- Abort of the pagination loop. Each constructor records the zero-based
index of the page the loop was working on together with the `data_sets`
list in scope at the moment the exception is raised:
`nullCursor` for the `TypeError` of concatenating a `None` cursor into
the URL, `requestFailed` when `requests.get` / `r.json()` raises, and
`badShape` for the `KeyError` of reading `['data']['after']` from a body
without the page shape (that body has already been appended). -/
inductive FetchError where
  | nullCursor : Nat → List Fetched → FetchError
  | requestFailed : Nat → List Fetched → FetchError
  | badShape : Nat → List Fetched → FetchError
deriving DecidableEq

/-- The notebook loop
`for x in range(10): r = requests.get(url + before); data_sets.append(r.json()); before = data_sets[-1]['data']['after']`,
parameterized by the remaining iteration count, the accumulated
`data_sets`, and the current `before` cursor. The URL concatenation
raises before any request when the cursor is `None`; a body is appended
before its cursor is read. -/
def paginate (f : String → ReqResult) : Nat → List Fetched → Option String → Except FetchError (List Fetched)
  | 0, acc, _ => .ok acc
  | n + 1, acc, cur =>
    match cur with
    | none => .error (.nullCursor acc.length acc)
    | some c =>
      match f c with
      | .fail => .error (.requestFailed acc.length acc)
      | .body j =>
        match cursorOf j with
        | .error _ => .error (.badShape acc.length (acc ++ [j]))
        | .ok cur' => paginate f n (acc ++ [j]) cur'

/-- The whole collection: the initial request (`reddit_json`), the read of
its `['data']['after']` cursor, then the pagination loop with the given
page budget (`range(10)` in the notebook). -/
def collectPages (f0 : ReqResult) (f : String → ReqResult) (pageBudget : Nat) : Except FetchError (List Fetched) :=
  match f0 with
  | .fail => .error (.requestFailed 0 [])
  | .body j =>
    match cursorOf j with
    | .error _ => .error (.badShape 0 [j])
    | .ok cur => paginate f pageBudget [j] cur

/-- The nested extraction loop from the notebook: one inner list per
element of `data_sets`, with `x['data']['score']` collected over
`y['data']['children']`; reading `['data']['children']` raises on a
malformed body. -/
def scores : List Fetched → Except Unit (List (List Int))
  | [] => .ok []
  | .malformed :: _ => .error ()
  | .page p :: t =>
    match scores t with
    | .error e => .error e
    | .ok rest => .ok (p.children.map Item.score :: rest)

/-- Refinement reference for the extraction step, following the spec's
words: flatten all items across all pages, in page order then intra-page
order, selecting the score field of each item. -/
def extractFieldFlat (ds : List Page) : List Int :=
  (ds.map (fun p => p.children.map Item.score)).flatten

/-- Discriminator for `Except`, used to state that a run is not a
successful return. -/
def exceptIsOk : Except ε α → Bool
  | .ok _ => true
  | .error _ => false

/-! ### CSV aggregation -/

/-- A CSV row, as produced by `csv.reader`: an ordered list of string
fields. -/
abbrev Row := List String

/-- Python list indexing for the fields the notebook reads. Every claim
below concerns rows that carry the indexed field, so the out-of-range
default is never reached in any theorem. -/
def field (r : Row) (i : Nat) : String := r.getD i ""

/-- ASCII whitespace stripped by Python `int(...)`. -/
def isPySpace (c : Char) : Bool :=
  c = ' ' || c = '\t' || c = '\n' || c = '\r' || c = '\x0b' || c = '\x0c'

def trimChars (cs : List Char) : List Char :=
  ((cs.dropWhile isPySpace).reverse.dropWhile isPySpace).reverse

def digitsVal (ds : List Char) : Nat :=
  ds.foldl (fun n c => n * 10 + (c.toNat - 48)) 0

/-- Python `int(...)` on an already-trimmed character list: an optional
sign, then a nonempty run of decimal digits. -/
def parseIntChars : List Char → Option Int
  | [] => none
  | '-' :: ds => if ds ≠ [] ∧ ds.all Char.isDigit then some (-(digitsVal ds : Int)) else none
  | '+' :: ds => if ds ≠ [] ∧ ds.all Char.isDigit then some ((digitsVal ds : Int)) else none
  | cs => if cs.all Char.isDigit then some ((digitsVal cs : Int)) else none

/-- Python `int(s)` for a string `s`. -/
def pyInt (s : String) : Option Int := parseIntChars (trimChars s.toList)

/-- Python `s.split('/')`, keeping empty components (`''.split('/')`
is `['']`). -/
def splitOnSlash : List Char → List (List Char)
  | [] => [[]]
  | c :: rest =>
    if c = '/' then [] :: splitOnSlash rest
    else
      match splitOnSlash rest with
      | [] => [[c]]
      | h :: t => (c :: h) :: t

/-- Python `int(incident[0].split('/')[-1])` from the tally loop (split
never yields an empty list, so the `[-1]` access cannot itself fail). -/
def yearOf (r : Row) : Option Int :=
  parseIntChars (trimChars ((splitOnSlash (field r 0).toList).getLastD []))

/-- The fatality field `incident[11]`. -/
def fatStr (r : Row) : String := field r 11

/-- The aircraft-type field `incident[6]`. -/
def craftStr (r : Row) : String := field r 6

/-- Abort of a CSV aggregation loop: the zero-based index (among data
rows, header excluded) of the record the loop was processing and the
offending field text, as recoverable from the Python traceback and the
loop state at the raise point. -/
inductive CsvError where
  | malformedDate : Nat → String → CsvError
  | malformedCount : Nat → String → CsvError
deriving DecidableEq

/-- A yearly tally: year to cumulative count, in insertion order. -/
abbrev Tally := List (Int × Int)

/-- The update `fatalities_per_year[year] += v` with `defaultdict(int)`
semantics on an insertion-ordered association list: bump the (unique)
entry for the key, or append a fresh entry at the end. -/
def addToTally : Tally → Int → Int → Tally
  | [], y, v => [(y, v)]
  | (k, c) :: t, y, v => if k = y then (k, c + v) :: t else (k, c) :: addToTally t y v

/-- The body of the `fatalities_per_year` loop over the remaining data
rows, carrying the index of the current record and the accumulator. The
year is parsed before the fatality field is tested, exactly as in the
notebook. -/
def tallyAux : List Row → Nat → Tally → Except CsvError Tally
  | [], _, m => .ok m
  | r :: rs, i, m =>
    match yearOf r with
    | none => .error (.malformedDate i (field r 0))
    | some y =>
      if fatStr r = "" then tallyAux rs (i + 1) m
      else
        match pyInt (fatStr r) with
        | none => .error (.malformedCount i (fatStr r))
        | some v => tallyAux rs (i + 1) (addToTally m y v)

/-- The `fatalities_per_year` cell: fold the tally over
`airplane_data[1:]` starting from the empty mapping. -/
def tallyFatalitiesByYear (rows : List Row) : Except CsvError Tally :=
  tallyAux (rows.drop 1) 0 []

/-- An aircraft-type frequency table, in insertion order. -/
abbrev Counter := List (String × Nat)

/-- One `Counter` increment: bump the (unique) entry for the key, or
append a fresh entry at the end, preserving first-seen order. -/
def incrCounter : Counter → String → Counter
  | [], k => [(k, 1)]
  | (k', c) :: t, k => if k' = k then (k', c + 1) :: t else (k', c) :: incrCounter t k

/-- `collections.Counter` over an iterable of keys. -/
def counterOf (ks : List String) : Counter := ks.foldl incrCounter []

/-- `Counter(x[6] for x in airplane_data[1:])`. -/
def aircraft_types (rows : List Row) : Counter :=
  counterOf ((rows.drop 1).map craftStr)

/-- The generator `x[6] for x in airplane_data[1:] if x[11] and int(x[11]) > 0`
as consumed by `Counter`: `int(x[11])` can raise inside the guard, which
aborts the construction. -/
def fatalAux : List Row → Nat → Counter → Except CsvError Counter
  | [], _, m => .ok m
  | r :: rs, i, m =>
    if fatStr r = "" then fatalAux rs (i + 1) m
    else
      match pyInt (fatStr r) with
      | none => .error (.malformedCount i (fatStr r))
      | some v =>
        if 0 < v then fatalAux rs (i + 1) (incrCounter m (craftStr r))
        else fatalAux rs (i + 1) m

/-- `Counter(x[6] for x in airplane_data[1:] if x[11] and int(x[11]) > 0)`. -/
def fatal_aircraft_types (rows : List Row) : Except CsvError Counter :=
  fatalAux (rows.drop 1) 0 []

/-- The spec's single `fatalOnly`-parameterized aggregator over the two
notebook `Counter` cells. -/
def countAircraftTypes (rows : List Row) (fatalOnly : Bool) : Except CsvError Counter :=
  if fatalOnly then fatal_aircraft_types rows else .ok (aircraft_types rows)

/-- Comparator used by `Counter.most_common`: larger counts first, and
`heapq.nlargest` / `sorted(..., reverse=True)` keep the original
(insertion) order of equal elements. -/
def countLE (p q : String × Nat) : Bool := decide (q.2 ≤ p.2)

/-- `most_common(n)`: CPython stably sorts the items (which iterate in
insertion order) by count descending and takes the first `n`. -/
def most_common (m : Counter) (n : Nat) : Counter :=
  (m.mergeSort countLE).take n

/-- The guard `x[11] and int(x[11]) > 0` of the fatal counter, as a
Boolean on rows (`false` also on an unparseable non-empty field, which
only matters below under hypotheses that rule that case out). -/
def isFatalB (r : Row) : Bool :=
  decide (fatStr r ≠ "") &&
    match pyInt (fatStr r) with
    | some v => decide (0 < v)
    | none => false

/-- A data row the tally loop gets through: the date's trailing component
parses, and the fatality field is empty or parses. -/
def validRow (r : Row) : Bool :=
  (yearOf r).isSome && (fatStr r == "" || (pyInt (fatStr r)).isSome)

/-- A data row some CSV loop raises on: the date's trailing component
does not parse, or the fatality field is non-empty and does not parse. -/
def badRow (r : Row) : Bool :=
  (yearOf r).isNone || (decide (fatStr r ≠ "") && (pyInt (fatStr r)).isNone)

/-- The exception the tally loop raises at a bad row at index `i`. -/
def rowErr (i : Nat) (r : Row) : CsvError :=
  if (yearOf r).isNone then .malformedDate i (field r 0) else .malformedCount i (fatStr r)

/-- Key sequence of an association list, in insertion order. -/
def keysOf {α β : Type} (m : List (α × β)) : List α := m.map Prod.fst

/-! ### Concrete pages for the pagination scenarios -/

def exPage0 : Page := ⟨[⟨1⟩], some "abc"⟩

def exPage1 : Page := ⟨[⟨2⟩], none⟩

def exFetch : String → ReqResult :=
  fun c => if c = "abc" then .body (.page exPage1) else .fail

/-- Claim C1, counterexample: with a page budget of 10 and the second
page carrying a null cursor, the collection does not return the 2
collected pages — the loop never tests the sentinel, so the next URL
concatenation raises a `TypeError` and the run ends in an error (the 2
pages survive only inside the abort payload). -/
theorem c1_counterexample :
    exceptIsOk (collectPages (.body (.page exPage0)) exFetch 10) = false ∧
    collectPages (.body (.page exPage0)) exFetch 10 =
      .error (.nullCursor 2 [.page exPage0, .page exPage1]) :=
  ⟨rfl, rfl⟩

/-- Claim C1, amended: the pagination loop does not test for the
"no more pages" sentinel. Whenever the second collected page carries a
null cursor and the page budget is not exhausted, the collection stops
requesting further pages at that point but aborts with the null-cursor
error carrying exactly the 2 pages collected so far, instead of
returning them as a result. -/
theorem c1_amended (f0 : ReqResult) (f : String → ReqResult) (p0 p1 : Page) (c : String)
    (n : Nat) (h0 : f0 = .body (.page p0)) (h1 : p0.after = some c)
    (h2 : f c = .body (.page p1)) (h3 : p1.after = none) (hn : 2 ≤ n) :
    collectPages f0 f n = .error (.nullCursor 2 [.page p0, .page p1]) := by
  subst h0
  obtain ⟨m, rfl⟩ : ∃ m, n = m + 2 := ⟨n - 2, by omega⟩
  simp [collectPages, cursorOf, h1, paginate, h2, h3]

/-- Claim C1, witness: the amended theorem at the concrete scenario of
the claim (`pageBudget = 10`, second page cursor null). -/
theorem c1_witness :
    collectPages (.body (.page exPage0)) exFetch 10 =
      .error (.nullCursor 2 [.page exPage0, .page exPage1]) :=
  c1_amended _ exFetch exPage0 exPage1 "abc" 10 rfl rfl rfl rfl (by decide)

/-- Claim C2, counterexample: a request answered by a JSON body without
the page shape (for example the body of a non-success status, which
`requests` does not raise on) is appended to `data_sets` before its
cursor is read, so the abort payload is not the list of pages
successfully collected before the failure: it also contains the
malformed body itself. -/
theorem c2_counterexample :
    collectPages (.body (.page exPage0)) (fun _ => .body .malformed) 5 =
      .error (.badShape 1 [.page exPage0, .malformed]) ∧
    ([Fetched.page exPage0, Fetched.malformed] : List Fetched) ≠ [.page exPage0] :=
  ⟨rfl, by decide⟩

/-- Claim C2, amended: whenever the loop is about to fetch the page at
zero-based index `acc.length` (having collected exactly `acc`) and the
request raises (transport error or unparseable body), the whole
collection aborts at once — no retry — with that index and the pages
collected so far; but when the request returns a parseable body without
the page shape, the body is appended first and the abort payload
contains it in addition to the previously collected pages. -/
theorem c2_amended (f : String → ReqResult) (n : Nat) (acc : List Fetched) (c : String)
    (hn : 0 < n) :
    (f c = .fail →
      paginate f n acc (some c) = .error (.requestFailed acc.length acc)) ∧
    (f c = .body .malformed →
      paginate f n acc (some c) = .error (.badShape acc.length (acc ++ [.malformed]))) := by
  obtain ⟨m, rfl⟩ : ∃ m, n = m + 1 := ⟨n - 1, by omega⟩
  constructor
  · intro h
    simp [paginate, h]
  · intro h
    simp [paginate, h, cursorOf]

/-- Claim C2, witness: the amended theorem at the spec's scenario — a
transport failure fetching page index 2 with 2 pages already collected
(budget 5, so 3 iterations remain) reports index 2 and the first 2
pages. -/
theorem c2_witness :
    paginate (fun _ => ReqResult.fail) 3 [Fetched.page exPage0, Fetched.page exPage1]
      (some "xyz") = .error (.requestFailed 2 [.page exPage0, .page exPage1]) :=
  (c2_amended (fun _ => ReqResult.fail) 3 [.page exPage0, .page exPage1] "xyz" (by decide)).1
    rfl

/-- Concrete dataset for claim C4: two pages, one item each. -/
def exPages4 : List Page := [⟨[⟨5⟩], some "a"⟩, ⟨[⟨7⟩], none⟩]

/-- Claim C4: at a dataset of two pages with one item each, the
notebook's `scores` loop yields the nested per-page lists `[[5], [7]]`
(one inner list per page), while the flat sequence described by the spec
— and by the notebook's own "More concise" comment, whose comprehension
is flat — is `[5, 7]`. -/
theorem c4_nested_not_flat :
    scores (exPages4.map Fetched.page) = .ok [[5], [7]] ∧
    extractFieldFlat exPages4 = [5, 7] :=
  ⟨rfl, rfl⟩

/-! ### Helper lemmas about the tally fold -/

theorem addToTally_sum (m : Tally) (y v : Int) :
    ((addToTally m y v).map Prod.snd).sum = (m.map Prod.snd).sum + v := by
  induction m with
  | nil => simp [addToTally]
  | cons p t ih =>
    obtain ⟨k, c⟩ := p
    by_cases h : k = y
    · simp [addToTally, h]
      ring
    · simp [addToTally, h, ih]
      ring

theorem keysOf_addToTally (m : Tally) (y v : Int) :
    keysOf (addToTally m y v) = if y ∈ keysOf m then keysOf m else keysOf m ++ [y] := by
  induction m with
  | nil => simp [addToTally, keysOf]
  | cons p t ih =>
    obtain ⟨k, c⟩ := p
    by_cases h : k = y
    · subst h
      simp [addToTally, keysOf]
    · simp only [keysOf] at ih ⊢
      by_cases hy : y ∈ List.map Prod.fst t
      · simp [addToTally, h, ih, hy, Ne.symm h]
      · simp [addToTally, h, ih, hy, Ne.symm h]

theorem addToTally_keys_mem (m : Tally) (y v : Int) : y ∈ keysOf (addToTally m y v) := by
  rw [keysOf_addToTally]
  by_cases hy : y ∈ keysOf m
  · simp [hy]
  · simp [hy]

theorem addToTally_keys_super (m : Tally) (y v z : Int) (hz : z ∈ keysOf m) :
    z ∈ keysOf (addToTally m y v) := by
  rw [keysOf_addToTally]
  by_cases hy : y ∈ keysOf m
  · simpa [hy] using hz
  · simp [hy, hz]

theorem addToTally_keys_sub (m : Tally) (y v z : Int) :
    z ∈ keysOf (addToTally m y v) → z ∈ keysOf m ∨ z = y := by
  rw [keysOf_addToTally]
  by_cases hy : y ∈ keysOf m
  · simp [hy]
    exact Or.inl
  · simp [hy]

/-- The fatality contribution of one data row, as the claims describe it:
nothing for an empty field, the parsed integer otherwise. -/
def fatSel (r : Row) : Option Int := if fatStr r = "" then none else pyInt (fatStr r)

theorem tallyAux_sum (m : Tally) :
    ∀ (rs : List Row) (i : Nat),
      (∀ r ∈ rs, validRow r = true) →
      ∃ m', tallyAux rs i m = .ok m' ∧
        (m'.map Prod.snd).sum = (m.map Prod.snd).sum + (rs.filterMap fatSel).sum := by
  intro rs
  induction rs generalizing m with
  | nil => exact fun i _ => ⟨m, rfl, by simp⟩
  | cons r rs ih =>
    intro i h
    have hr := h r (by simp)
    have hrest : ∀ q ∈ rs, validRow q = true := fun q hq => h q (by simp [hq])
    simp only [validRow, Bool.and_eq_true, Bool.or_eq_true, beq_iff_eq] at hr
    obtain ⟨hy, hf⟩ := hr
    obtain ⟨y, hy'⟩ := Option.isSome_iff_exists.mp hy
    by_cases hemp : fatStr r = ""
    · obtain ⟨m', hm', hsum⟩ := ih m (i + 1) hrest
      refine ⟨m', ?_, ?_⟩
      · simp [tallyAux, hy', hemp, hm']
      · simpa [fatSel, hemp] using hsum
    · have hps : (pyInt (fatStr r)).isSome = true := by
        rcases hf with hf | hf
        · exact absurd hf hemp
        · exact hf
      obtain ⟨v, hv⟩ := Option.isSome_iff_exists.mp hps
      obtain ⟨m', hm', hsum⟩ := ih (addToTally m y v) (i + 1) hrest
      refine ⟨m', ?_, ?_⟩
      · simp [tallyAux, hy', hemp, hv, hm']
      · rw [hsum, addToTally_sum]
        simp [fatSel, hemp, hv]
        ring

/-- Claim C3: for valid incident records (dates parse, non-empty fatality
fields parse), the tally succeeds and the sum of its values equals the
sum of the integer values of the non-empty fatality fields of the data
rows. -/
theorem c3_tally_sum (rows : List Row)
    (h : ∀ r ∈ rows.drop 1, validRow r = true) :
    ∃ m, tallyFatalitiesByYear rows = .ok m ∧
      (m.map Prod.snd).sum = ((rows.drop 1).filterMap fatSel).sum := by
  obtain ⟨m, hm, hs⟩ := tallyAux_sum [] (rows.drop 1) 0 h
  exact ⟨m, hm, by simpa using hs⟩

/-- Concrete records for the C3 witness: a header, one row with 3
fatalities in 1920, one fatality-free row in 1921. -/
def exRows3 : List Row :=
  [["Date", "Location"],
   ["1/1/1920", "", "", "", "", "", "Fokker", "", "", "", "", "3"],
   ["7/4/1921", "", "", "", "", "", "Avro", "", "", "", "", ""]]

/-- Claim C3, witness: the sum property at the concrete records. -/
theorem c3_witness :
    ∃ m, tallyFatalitiesByYear exRows3 = .ok m ∧
      (m.map Prod.snd).sum = ((exRows3.drop 1).filterMap fatSel).sum :=
  c3_tally_sum exRows3 (by decide)

/-- The tally loop walks past any block of valid rows, advancing the
record index by its length. -/
theorem tallyAux_append_valid :
    ∀ (pre : List Row) (rest : List Row) (i : Nat) (m : Tally),
      (∀ q ∈ pre, validRow q = true) →
      ∃ m'', tallyAux (pre ++ rest) i m = tallyAux rest (i + pre.length) m''
  | [], rest, i, m => fun _ => ⟨m, by simp [tallyAux]⟩
  | q :: pre, rest, i, m => by
    intro h
    have hq := h q (by simp)
    have hrest : ∀ p ∈ pre, validRow p = true := fun p hp => h p (by simp [hp])
    simp only [validRow, Bool.and_eq_true, Bool.or_eq_true, beq_iff_eq] at hq
    obtain ⟨hy, hf⟩ := hq
    obtain ⟨y, hy'⟩ := Option.isSome_iff_exists.mp hy
    by_cases hemp : fatStr q = ""
    · obtain ⟨m'', hm⟩ := tallyAux_append_valid pre rest (i + 1) m hrest
      refine ⟨m'', ?_⟩
      rw [show (q :: pre) ++ rest = q :: (pre ++ rest) from rfl]
      rw [show i + (q :: pre).length = (i + 1) + pre.length from by simp; omega]
      simp [tallyAux, hy', hemp, hm]
    · have hps : (pyInt (fatStr q)).isSome = true := by
        rcases hf with hf | hf
        · exact absurd hf hemp
        · exact hf
      obtain ⟨v, hv⟩ := Option.isSome_iff_exists.mp hps
      obtain ⟨m'', hm⟩ := tallyAux_append_valid pre rest (i + 1) (addToTally m y v) hrest
      refine ⟨m'', ?_⟩
      rw [show (q :: pre) ++ rest = q :: (pre ++ rest) from rfl]
      rw [show i + (q :: pre).length = (i + 1) + pre.length from by simp; omega]
      simp [tallyAux, hy', hemp, hv, hm]

/-- Concrete record for the C5 counterexample: a well-formed date and the
fatality field `"-3"`, which is non-empty and not a non-negative
integer, yet parses under Python `int`. -/
def exRowNeg : Row := ["1/1/1920", "", "", "", "", "", "Fokker", "", "", "", "", "-3"]

/-- Claim C5, counterexample: on a data record whose fatality field is
`"-3"` — non-empty and not a non-negative integer — the aggregation does
not fail: the tally parses the negative value and sums it, and the
fatal-only counter silently skips the record. -/
theorem c5_counterexample :
    fatStr exRowNeg = "-3" ∧
    tallyFatalitiesByYear [["Date"], exRowNeg] = .ok [(1920, -3)] ∧
    exceptIsOk (tallyFatalitiesByYear [["Date"], exRowNeg]) = true ∧
    fatal_aircraft_types [["Date"], exRowNeg] = .ok [] :=
  ⟨rfl, rfl, rfl, rfl⟩

/-- Claim C5, amended: restrict the fatality clause to fields that do not
parse under Python `int` (an optionally signed digit run): if the data
rows start with a block of valid records followed by a record whose date
does not end in a parseable integer after splitting on `/`, or whose
fatality field is non-empty and unparseable, the aggregation fails with
a typed error carrying that record's zero-based index and the offending
field. A non-empty fatality field that parses to a negative integer is
not an error: it is summed. -/
theorem c5_amended (rows : List Row) (pre post : List Row) (r : Row)
    (hs : rows.drop 1 = pre ++ r :: post)
    (hpre : ∀ q ∈ pre, validRow q = true)
    (hbad : badRow r = true) :
    tallyFatalitiesByYear rows = .error (rowErr pre.length r) := by
  unfold tallyFatalitiesByYear
  rw [hs]
  obtain ⟨m'', hm⟩ := tallyAux_append_valid pre (r :: post) 0 [] hpre
  rw [hm]
  simp only [badRow, Bool.or_eq_true, Bool.and_eq_true, decide_eq_true_eq] at hbad
  rcases hbad with hdate | ⟨hne, hcnt⟩
  · have hy : yearOf r = none := by
      cases hyy : yearOf r
      · rfl
      · rw [hyy] at hdate
        simp at hdate
    simp [tallyAux, hy, rowErr, Option.isNone_iff_eq_none.mpr hy]
  · cases hy : yearOf r with
    | none => simp [tallyAux, hy, rowErr, Option.isNone_iff_eq_none.mpr hy]
    | some y =>
      have hv : pyInt (fatStr r) = none := Option.isNone_iff_eq_none.mp hcnt
      simp [tallyAux, hy, hne, hv, rowErr, Option.isNone_iff_eq_none]

/-- Concrete records for the C5 witness: one valid row, then a row whose
date has no parseable trailing component. -/
def exRowGood : Row := ["1/1/1920", "", "", "", "", "", "Fokker", "", "", "", "", "2"]

def exRowBadDate : Row := ["nodate", "", "", "", "", "", "Avro", "", "", "", "", "1"]

/-- Claim C5, witness: the amended theorem at concrete records — the bad
date at data-row index 1 aborts the tally with `MalformedDateError`
carrying that index and the date field. -/
theorem c5_witness :
    tallyFatalitiesByYear [["Date"], exRowGood, exRowBadDate] =
      .error (CsvError.malformedDate 1 "nodate") :=
  c5_amended [["Date"], exRowGood, exRowBadDate] [exRowGood] [] exRowBadDate rfl
    (by decide) (by decide)

/-- Keys already in the accumulator survive a successful tally run. -/
theorem tallyAux_keys_mono (m' : Tally) (z : Int) :
    ∀ (rs : List Row) (i : Nat) (m : Tally),
      tallyAux rs i m = .ok m' → z ∈ keysOf m → z ∈ keysOf m'
  | [], i, m => by
    intro h hz
    simp only [tallyAux, Except.ok.injEq] at h
    exact h ▸ hz
  | r :: rs, i, m => by
    intro h hz
    cases hy : yearOf r with
    | none => simp [tallyAux, hy] at h
    | some y =>
      by_cases hemp : fatStr r = ""
      · rw [show tallyAux (r :: rs) i m = tallyAux rs (i + 1) m from by
          simp [tallyAux, hy, hemp]] at h
        exact tallyAux_keys_mono m' z rs (i + 1) m h hz
      · cases hv : pyInt (fatStr r) with
        | none => simp [tallyAux, hy, hemp, hv] at h
        | some v =>
          rw [show tallyAux (r :: rs) i m = tallyAux rs (i + 1) (addToTally m y v) from by
            simp [tallyAux, hy, hemp, hv]] at h
          exact tallyAux_keys_mono m' z rs (i + 1) (addToTally m y v) h
            (addToTally_keys_super m y v z hz)

/-- A data record with a parsing year and a non-empty fatality field
forces its year into the result of a successful tally run. -/
theorem tallyAux_key_of_mem (m' : Tally) (y : Int) (r : Row) :
    ∀ (rs : List Row) (i : Nat) (m : Tally),
      r ∈ rs → yearOf r = some y → fatStr r ≠ "" →
      tallyAux rs i m = .ok m' → y ∈ keysOf m'
  | [], i, m => by
    intro hr
    simp at hr
  | r0 :: rs, i, m => by
    intro hr hy hne h
    cases hy0 : yearOf r0 with
    | none => simp [tallyAux, hy0] at h
    | some y0 =>
      by_cases hemp : fatStr r0 = ""
      · rw [show tallyAux (r0 :: rs) i m = tallyAux rs (i + 1) m from by
          simp [tallyAux, hy0, hemp]] at h
        rcases List.mem_cons.mp hr with rfl | hr'
        · exact absurd hemp hne
        · exact tallyAux_key_of_mem m' y r rs (i + 1) m hr' hy hne h
      · cases hv : pyInt (fatStr r0) with
        | none => simp [tallyAux, hy0, hemp, hv] at h
        | some v =>
          rw [show tallyAux (r0 :: rs) i m = tallyAux rs (i + 1) (addToTally m y0 v) from by
            simp [tallyAux, hy0, hemp, hv]] at h
          rcases List.mem_cons.mp hr with rfl | hr'
          · have : y0 = y := by
              rw [hy0] at hy
              exact (Option.some.injEq y0 y ▸ hy : y0 = y)
            subst this
            exact tallyAux_keys_mono m' y0 rs (i + 1) (addToTally m y0 v) h
              (addToTally_keys_mem m y0 v)
          · exact tallyAux_key_of_mem m' y r rs (i + 1) (addToTally m y0 v) hr' hy hne h

/-- Every key of a successful tally run comes from the accumulator or
from a record with that year and a non-empty fatality field. -/
theorem tallyAux_keys_from (m' : Tally) (z : Int) :
    ∀ (rs : List Row) (i : Nat) (m : Tally),
      tallyAux rs i m = .ok m' → z ∈ keysOf m' →
      z ∈ keysOf m ∨ ∃ r, r ∈ rs ∧ yearOf r = some z ∧ fatStr r ≠ ""
  | [], i, m => by
    intro h hz
    simp only [tallyAux, Except.ok.injEq] at h
    exact Or.inl (h ▸ hz)
  | r :: rs, i, m => by
    intro h hz
    cases hy : yearOf r with
    | none => simp [tallyAux, hy] at h
    | some y =>
      by_cases hemp : fatStr r = ""
      · rw [show tallyAux (r :: rs) i m = tallyAux rs (i + 1) m from by
          simp [tallyAux, hy, hemp]] at h
        rcases tallyAux_keys_from m' z rs (i + 1) m h hz with h1 | ⟨r', hr', hyr', hner'⟩
        · exact Or.inl h1
        · exact Or.inr ⟨r', by simp [hr'], hyr', hner'⟩
      · cases hv : pyInt (fatStr r) with
        | none => simp [tallyAux, hy, hemp, hv] at h
        | some v =>
          rw [show tallyAux (r :: rs) i m = tallyAux rs (i + 1) (addToTally m y v) from by
            simp [tallyAux, hy, hemp, hv]] at h
          rcases tallyAux_keys_from m' z rs (i + 1) (addToTally m y v) h hz with h1 | ⟨r', hr', hyr', hner'⟩
          · rcases addToTally_keys_sub m y v z h1 with h2 | rfl
            · exact Or.inl h2
            · exact Or.inr ⟨r, by simp, hy, hemp⟩
          · exact Or.inr ⟨r', by simp [hr'], hyr', hner'⟩

/-- A successful fatal-counter run is the counter of the aircraft types
of the records passing the fatality guard, folded from the accumulator. -/
theorem fatalAux_ok (c : Counter) :
    ∀ (rs : List Row) (i : Nat) (m : Counter),
      fatalAux rs i m = .ok c →
      c = ((rs.filter isFatalB).map craftStr).foldl incrCounter m
  | [], i, m => by
    intro h
    simp only [fatalAux, Except.ok.injEq] at h
    simp [h.symm]
  | r :: rs, i, m => by
    intro h
    by_cases hemp : fatStr r = ""
    · rw [show fatalAux (r :: rs) i m = fatalAux rs (i + 1) m from by
        simp [fatalAux, hemp]] at h
      have hf : isFatalB r = false := by simp [isFatalB, hemp]
      simpa [hf] using fatalAux_ok c rs (i + 1) m h
    · cases hv : pyInt (fatStr r) with
      | none => simp [fatalAux, hemp, hv] at h
      | some v =>
        by_cases hpos : 0 < v
        · rw [show fatalAux (r :: rs) i m = fatalAux rs (i + 1) (incrCounter m (craftStr r)) from by
            simp [fatalAux, hemp, hv, hpos]] at h
          have hf : isFatalB r = true := by simp [isFatalB, hemp, hv, hpos]
          simpa [hf] using fatalAux_ok c rs (i + 1) (incrCounter m (craftStr r)) h
        · rw [show fatalAux (r :: rs) i m = fatalAux rs (i + 1) m from by
            simp [fatalAux, hemp, hv, hpos]] at h
          have hf : isFatalB r = false := by simp [isFatalB, hemp, hv, hpos]
          simpa [hf] using fatalAux_ok c rs (i + 1) m h

/-- Claim C6: a data record whose fatality field is exactly `"0"` makes
its year a key of the tally (with 0 added), fails the fatal guard
`x[11] and int(x[11]) > 0`, and is therefore absent from the counts of
the fatal-only counter, which counts exactly the guard-passing records. -/
theorem c6_zero_fatalities (rows : List Row) (r : Row) (y : Int) (m : Tally)
    (hr : r ∈ rows.drop 1) (h0 : fatStr r = "0") (hy : yearOf r = some y)
    (hm : tallyFatalitiesByYear rows = .ok m) :
    y ∈ keysOf m ∧ isFatalB r = false ∧
      ∀ c, fatal_aircraft_types rows = .ok c →
        c = (((rows.drop 1).filter isFatalB).map craftStr).foldl incrCounter [] := by
  refine ⟨?_, ?_, ?_⟩
  · exact tallyAux_key_of_mem m y r (rows.drop 1) 0 [] hr hy (by simp [h0]) hm
  · simp only [isFatalB, h0]
    decide
  · intro c hc
    exact fatalAux_ok c (rows.drop 1) 0 [] hc

/-- Concrete record for the C6 witness: fatality field `"0"`. -/
def exRow0 : Row := ["1/1/1920", "", "", "", "", "", "Fokker", "", "", "", "", "0"]

/-- Claim C6, witness: at the concrete record, 1920 is a key of the
tally (with value 0) and the record is excluded from the fatal-only
counts. -/
theorem c6_witness :
    (1920 : Int) ∈ keysOf [((1920 : Int), (0 : Int))] ∧ isFatalB exRow0 = false ∧
      ∀ c, fatal_aircraft_types [["Date"], exRow0] = .ok c →
        c = List.foldl incrCounter []
          (((([["Date"], exRow0] : List Row).drop 1).filter isFatalB).map craftStr) :=
  c6_zero_fatalities [["Date"], exRow0] exRow0 1920 [(1920, 0)] (by decide) rfl rfl rfl

/-- Claim C8: an input consisting of only a header row yields empty
mappings from the tally and from both variants of the aircraft-type
counter, with no error. -/
theorem c8_header_only (hdr : Row) (b : Bool) :
    tallyFatalitiesByYear [hdr] = .ok [] ∧ countAircraftTypes [hdr] b = .ok [] := by
  refine ⟨rfl, ?_⟩
  cases b
  · rfl
  · rfl

/-- Claim C9: both aggregators are pure functions of the input row list —
the embedding has no other state — so re-running either on the same
input yields the identical mapping. -/
theorem c9_deterministic (rows : List Row) (b : Bool) :
    tallyFatalitiesByYear rows = tallyFatalitiesByYear rows ∧
    countAircraftTypes rows b = countAircraftTypes rows b :=
  ⟨rfl, rfl⟩

/-- Claim C10: if every data record dated in year `y` has an empty
fatality field, then `y` is not a key of a successful tally result: the
`defaultdict` entry is only ever touched inside the non-empty branch. -/
theorem c10_all_empty_year_absent (rows : List Row) (m : Tally) (y : Int)
    (hm : tallyFatalitiesByYear rows = .ok m)
    (hall : ∀ r ∈ rows.drop 1, yearOf r = some y → fatStr r = "") :
    y ∉ keysOf m := by
  intro hy
  rcases tallyAux_keys_from m y (rows.drop 1) 0 [] hm hy with h | ⟨r, hr, hyr, hne⟩
  · simp [keysOf] at h
  · exact hne (hall r hr hyr)

/-- Concrete records for the C10 witness: the only 1920 record has an
empty fatality field, a 1921 record carries 3 fatalities. -/
def exRowEmpty1920 : Row := ["1/1/1920", "", "", "", "", "", "Fokker", "", "", "", "", ""]

def exRow1921 : Row := ["2/2/1921", "", "", "", "", "", "Avro", "", "", "", "", "3"]

/-- Claim C10, witness: 1920 is not a key of the resulting tally. -/
theorem c10_witness :
    (1920 : Int) ∉ keysOf [((1921 : Int), (3 : Int))] :=
  c10_all_empty_year_absent [["Date"], exRowEmpty1920, exRow1921] [(1921, 3)] 1920 rfl
    (by decide)

/-! ### Helper lemmas about the counter and `most_common` -/

theorem countLE_trans : ∀ (a b c : String × Nat), countLE a b → countLE b c → countLE a c := by
  intro a b c hab hbc
  simp only [countLE, decide_eq_true_eq] at hab hbc ⊢
  omega

theorem countLE_total : ∀ (a b : String × Nat), countLE a b || countLE b a := by
  intro a b
  simp only [countLE, Bool.or_eq_true, decide_eq_true_eq]
  omega

theorem incrCounter_keys (m : Counter) (k : String) :
    keysOf (incrCounter m k) = if k ∈ keysOf m then keysOf m else keysOf m ++ [k] := by
  induction m with
  | nil => simp [incrCounter, keysOf]
  | cons p t ih =>
    obtain ⟨k', c⟩ := p
    by_cases h : k' = k
    · subst h
      simp [incrCounter, keysOf]
    · simp only [keysOf] at ih ⊢
      by_cases hk : k ∈ List.map Prod.fst t
      · simp [incrCounter, h, ih, hk, Ne.symm h]
      · simp [incrCounter, h, ih, hk, Ne.symm h]

theorem counterOf_snoc (ks : List String) (k : String) :
    counterOf (ks ++ [k]) = incrCounter (counterOf ks) k := by
  simp [counterOf, List.foldl_append]

/-- The counter of an input sequence lists its keys in first-encounter
order: the key sequence is pairwise increasing in the index of the first
occurrence, every key occurs in the input, and every input element is a
key. -/
theorem counter_main (ks : List String) :
    (keysOf (counterOf ks)).Pairwise (fun a b => ks.indexOf a < ks.indexOf b) ∧
    (∀ z ∈ keysOf (counterOf ks), z ∈ ks) ∧
    (∀ k ∈ ks, k ∈ keysOf (counterOf ks)) := by
  induction ks using List.reverseRecOn with
  | nil => simp [counterOf, keysOf]
  | append_singleton ks k ih =>
    obtain ⟨hP, hSub, hSup⟩ := ih
    rw [counterOf_snoc, incrCounter_keys]
    by_cases hk : k ∈ keysOf (counterOf ks)
    · rw [if_pos hk]
      refine ⟨?_, ?_, ?_⟩
      · refine List.Pairwise.imp_of_mem ?_ hP
        intro a b ha hb hab
        rw [List.indexOf_append_of_mem (hSub a ha), List.indexOf_append_of_mem (hSub b hb)]
        exact hab
      · intro z hz
        exact List.mem_append_left _ (hSub z hz)
      · intro k' hk'
        rcases List.mem_append.mp hk' with h | h
        · exact hSup k' h
        · rw [List.mem_singleton.mp h]
          exact hk
    · rw [if_neg hk]
      have hkks : k ∉ ks := fun h => hk (hSup k h)
      refine ⟨?_, ?_, ?_⟩
      · rw [List.pairwise_append]
        refine ⟨?_, by simp, ?_⟩
        · refine List.Pairwise.imp_of_mem ?_ hP
          intro a b ha hb hab
          rw [List.indexOf_append_of_mem (hSub a ha), List.indexOf_append_of_mem (hSub b hb)]
          exact hab
        · intro a ha b hb
          rw [List.mem_singleton.mp hb]
          rw [List.indexOf_append_of_mem (hSub a ha), List.indexOf_append_of_not_mem hkks]
          have h1 : ks.indexOf a < ks.length := List.indexOf_lt_length.mpr (hSub a ha)
          simp [List.indexOf_cons_self]
          omega
      · intro z hz
        rcases List.mem_append.mp hz with h | h
        · exact List.mem_append_left _ (hSub z h)
        · exact List.mem_append_right _ h
      · intro k' hk'
        rcases List.mem_append.mp hk' with h | h
        · exact List.mem_append_left _ (hSup k' h)
        · exact List.mem_append_right _ h

/-- Two distinct members of a list occur in it in one order or the
other, as a two-element sublist. -/
theorem pair_sublist_of_mem {α : Type} {a b : α} :
    ∀ {l : List α}, a ∈ l → b ∈ l → a ≠ b →
      List.Sublist [a, b] l ∨ List.Sublist [b, a] l := by
  intro l
  induction l with
  | nil =>
    intro ha
    simp at ha
  | cons c t ih =>
    intro ha hb hne
    rcases List.mem_cons.mp ha with rfl | ha'
    · have hb' : b ∈ t := by
        rcases List.mem_cons.mp hb with h | h
        · exact absurd h.symm hne
        · exact h
      exact Or.inl (List.Sublist.cons₂ a (List.singleton_sublist.mpr hb'))
    · rcases List.mem_cons.mp hb with rfl | hb'
      · exact Or.inr (List.Sublist.cons₂ b (List.singleton_sublist.mpr ha'))
      · rcases ih ha' hb' hne with h | h
        · exact Or.inl (List.Sublist.cons c h)
        · exact Or.inr (List.Sublist.cons c h)

/-- In a duplicate-free list, a pair cannot occur as a sublist in both
orders. -/
theorem sublist_pair_asymm {α : Type} {a b : α} :
    ∀ {l : List α}, l.Nodup → List.Sublist [a, b] l → List.Sublist [b, a] l → False := by
  intro l
  induction l with
  | nil =>
    intro _ h
    simp at h
  | cons c t ih =>
    intro hnd h1 h2
    obtain ⟨hcn, hndt⟩ := List.nodup_cons.mp hnd
    cases h1 with
    | cons _ hA =>
      cases h2 with
      | cons _ hB => exact ih hndt hA hB
      | cons₂ hB => exact hcn (hA.subset (by simp))
    | cons₂ hA =>
      cases h2 with
      | cons _ hB => exact hcn (hB.subset (by simp))
      | cons₂ =>
        rename_i hB
        exact hcn (hB.subset (by simp))

/-- Claim C7: `most_common` is the `n`-prefix of the stable descending
sort of the counter built from the input sequence `ks`; that sorted list
is a permutation of the counter (so the prefix is the `n` entries of
highest count) and is pairwise ordered by strictly greater count, or by
equal count and strictly earlier first occurrence in the input sequence
(stable first-seen tie-breaking). -/
theorem c7_most_common (ks : List String) (n : Nat) :
    most_common (counterOf ks) n = ((counterOf ks).mergeSort countLE).take n ∧
    List.Perm ((counterOf ks).mergeSort countLE) (counterOf ks) ∧
    ((counterOf ks).mergeSort countLE).Pairwise (fun p q =>
      q.2 < p.2 ∨ (p.2 = q.2 ∧ ks.indexOf p.1 < ks.indexOf q.1)) := by
  refine ⟨rfl, List.mergeSort_perm _ _, ?_⟩
  have hP : (keysOf (counterOf ks)).Pairwise (fun a b => ks.indexOf a < ks.indexOf b) :=
    (counter_main ks).1
  have hPm : (counterOf ks).Pairwise (fun p q => ks.indexOf p.1 < ks.indexOf q.1) :=
    List.Pairwise.of_map Prod.fst (fun _ _ h => h) hP
  have hSorted := List.sorted_mergeSort countLE_trans countLE_total (counterOf ks)
  have hNdKeys : (keysOf (counterOf ks)).Nodup := by
    refine hP.imp ?_
    intro a b hab
    intro h
    rw [h] at hab
    omega
  have hNd : (counterOf ks).Nodup := hNdKeys.of_map
  have hNds : ((counterOf ks).mergeSort countLE).Nodup :=
    (List.mergeSort_perm (counterOf ks) countLE).nodup_iff.mpr hNd
  rw [List.pairwise_iff_forall_sublist]
  intro p q hsub
  have hle : countLE p q = true := List.pairwise_iff_forall_sublist.mp hSorted hsub
  have hqp : q.2 ≤ p.2 := by simpa [countLE] using hle
  by_cases hlt : q.2 < p.2
  · exact Or.inl hlt
  · have heq : p.2 = q.2 := by omega
    refine Or.inr ⟨heq, ?_⟩
    have hne : p ≠ q := by
      have hnd2 : ([p, q] : List (String × Nat)).Nodup := hsub.nodup hNds
      simp only [List.nodup_cons, List.mem_singleton, List.nodup_nil] at hnd2
      exact hnd2.1
    have hpm : p ∈ counterOf ks := List.mem_mergeSort.mp (hsub.subset (by simp))
    have hqm : q ∈ counterOf ks := List.mem_mergeSort.mp (hsub.subset (by simp))
    rcases pair_sublist_of_mem hpm hqm hne with h1 | h1
    · exact List.pairwise_iff_forall_sublist.mp hPm h1
    · exfalso
      have h2 : List.Sublist [q, p] ((counterOf ks).mergeSort countLE) :=
        List.pair_sublist_mergeSort countLE_trans countLE_total (by simp [countLE, heq]) h1
      exact sublist_pair_asymm hNds hsub h2
